import Mathlib

/-!
Shallow embedding of `src/fdiff/dataloaders/datamodules.py` from the
FourierDiffusionMirror repository.

Tensors of shape (samples, sequence_length, channels) are embedded as nested
lists over ℚ (exact arithmetic in place of float32).  The external numeric
collaborators that the file imports but does not define (`dft` from
`src.fdiff.utils.fourier`, the per-dataset preprocessing routines, and the
square root used by `torch.std`) are abstract parameters: no theorem below
depends on their behaviour beyond what the python file itself guarantees.
PyTorch's aliasing semantics (plain indexing returns a view of the stored
tensor, arithmetic allocates a fresh tensor) are made explicit in the sample
record returned by `DiffusionDataset.getitem`.
-/

namespace FDiff

/-- A row of channel values at one time step. -/
abbrev Vec := List ℚ

/-- One sequence: (sequence_length, channels). -/
abbrev Mat := List Vec

/-- A batch tensor: (samples, sequence_length, channels). -/
abbrev Tensor3 := List Mat

/-- Entry of a matrix at (time `t`, channel `c`), with 0 as default out of range. -/
def entry (m : Mat) (t c : ℕ) : ℚ := (m.getD t []).getD c 0

/-- Entry of a 3-d tensor at (sample `s`, time `t`, channel `c`). -/
def entry3 (X : Tensor3) (s t c : ℕ) : ℚ := entry (X.getD s []) t c

/-- `X.shape[0]`: number of samples. -/
def dim0 (X : Tensor3) : ℕ := X.length

/-- `X.shape[1]`: sequence length (read off the first sample). -/
def dim1 (X : Tensor3) : ℕ := (X.getD 0 []).length

/-- `X.shape[2]`: channel count (read off the first row of the first sample). -/
def dim2 (X : Tensor3) : ℕ := ((X.getD 0 []).getD 0 []).length

/-- `m` is a rectangular (L, C) matrix. -/
def matShapeb (m : Mat) (L C : ℕ) : Bool :=
  m.length == L && m.all (fun r => r.length == C)

/-- `X` is a rectangular (n, L, C) tensor. -/
def tensorShapeb (X : Tensor3) (n L C : ℕ) : Bool :=
  X.length == n && X.all (fun m => matShapeb m L C)

/-- The values of `X[:, t, c]` across samples. -/
def colVals (X : Tensor3) (t c : ℕ) : List ℚ := X.map (fun m => entry m t c)

/-- `X.mean(dim=0)`: the (L, C) matrix of per-position means over samples. -/
def meanDim0 (X : Tensor3) : Mat :=
  (List.range (dim1 X)).map fun t => (List.range (dim2 X)).map fun c =>
    (colVals X t c).sum / (dim0 X : ℚ)

/-- The unbiased per-position variance over samples (what `torch.std` takes the
square root of: `torch.std` divides by `n - 1` by default). -/
def varDim0 (X : Tensor3) : Mat :=
  (List.range (dim1 X)).map fun t => (List.range (dim2 X)).map fun c =>
    ((colVals X t c).map
      (fun x => (x - (colVals X t c).sum / (dim0 X : ℚ)) ^ 2)).sum
      / ((dim0 X : ℚ) - 1)

/-- `X.std(dim=0)` for an abstract square-root function `sqrtF`. -/
def stdDim0 (sqrtF : ℚ → ℚ) (X : Tensor3) : Mat :=
  (varDim0 X).map (fun r => r.map sqrtF)

/-- Element-wise binary operation on two matrices (PyTorch broadcasting is not
needed here: both operands always have shape (L, C)). -/
def matBinop (f : ℚ → ℚ → ℚ) (a b : Mat) : Mat :=
  List.zipWith (List.zipWith f) a b

/-- Embedding of the `DiffusionDataset` object after `__init__` has run. -/
structure DiffusionDataset where
  X : Tensor3
  y : Option (List ℚ)
  standardize : Bool
  feature_mean : Mat
  feature_std : Mat

/-- `DiffusionDataset.__init__`: optionally applies the (abstract) Fourier
transform `dftF`, then computes the per-position mean and std from the
reference tensor, which defaults to `X` itself. -/
def DiffusionDataset.make (dftF : Tensor3 → Tensor3) (sqrtF : ℚ → ℚ)
    (X : Tensor3) (y : Option (List ℚ)) (fourier_transform standardize : Bool)
    (X_ref : Option Tensor3) : DiffusionDataset :=
  let X1 := if fourier_transform then dftF X else X
  let Xr := match X_ref with
    | none => X1
    | some Z => if fourier_transform then dftF Z else Z
  { X := X1
    y := y
    standardize := standardize
    feature_mean := meanDim0 Xr
    feature_std := stdDim0 sqrtF Xr }

/-- The record returned by `DiffusionDataset.__getitem__`.  `Xaliased` records
PyTorch's aliasing semantics: `self.X[index]` is a view sharing storage with
`self.X`, while the result of tensor arithmetic is freshly allocated. -/
structure SampleRecord where
  X : Mat
  Xaliased : Bool
  y : Option ℚ

/-- `DiffusionDataset.__getitem__`. -/
def DiffusionDataset.getitem (d : DiffusionDataset) (index : ℕ) : SampleRecord :=
  let x0 := d.X.getD index []
  let p : Mat × Bool :=
    if d.standardize then
      (matBinop (· / ·) (matBinop (· - ·) x0 d.feature_mean) d.feature_std, false)
    else (x0, true)
  { X := p.1, Xaliased := p.2, y := d.y.map (fun ys => ys.getD index 0) }

/-- The dataset's stored tensor after the caller overwrites the value returned
by `getitem index` with `v`: when the returned tensor is a view, the write goes
through to storage; otherwise storage is untouched. -/
def storedXAfterSet (d : DiffusionDataset) (index : ℕ) (v : Mat) : Tensor3 :=
  if (d.getitem index).Xaliased then d.X.set index v else d.X

/-- The (t, c) entries of the samples served by `getitem` for indices
`0, …, n-1`: the whole standardized set seen position-wise. -/
def sampleEntries (d : DiffusionDataset) (n t c : ℕ) : List ℚ :=
  (List.range n).map fun i => entry (d.getitem i).X t c

/-- Mean of a list of values. -/
def lmean (l : List ℚ) : ℚ := l.sum / (l.length : ℚ)

/-- Unbiased variance of a list of values (the square of what `torch.std`
computes over the whole set). -/
def lvar (l : List ℚ) : ℚ :=
  (l.map (fun x => (x - lmean l) ^ 2)).sum / ((l.length : ℚ) - 1)

/-- Embedding of the state of a `Datamodule` after `setup` populated the four
tensors. -/
structure Datamodule where
  batch_size : ℕ
  fourier_transform : Bool
  standardize : Bool
  X_train : Tensor3
  y_train : Option (List ℚ)
  X_test : Tensor3
  y_test : Option (List ℚ)

/-- The data a `DataLoader` is constructed from: the wrapped dataset, the batch
size and the shuffle flag. -/
structure DataLoaderCfg where
  dataset : DiffusionDataset
  batch_size : ℕ
  shuffle : Bool

/-- `Datamodule.train_dataloader`. -/
def train_dataloader (dftF : Tensor3 → Tensor3) (sqrtF : ℚ → ℚ)
    (dm : Datamodule) : DataLoaderCfg :=
  { dataset := .make dftF sqrtF dm.X_train dm.y_train dm.fourier_transform
      dm.standardize none
    batch_size := dm.batch_size
    shuffle := true }

/-- `Datamodule.test_dataloader`: note that the python call passes neither
`standardize` nor `X_ref`, so both take their defaults (`False`, `None`). -/
def test_dataloader (dftF : Tensor3 → Tensor3) (sqrtF : ℚ → ℚ)
    (dm : Datamodule) : DataLoaderCfg :=
  { dataset := .make dftF sqrtF dm.X_test dm.y_test dm.fourier_transform
      false none
    batch_size := dm.batch_size
    shuffle := false }

/-- `Datamodule.val_dataloader`: wraps `X_test` but passes `X_ref = X_train`. -/
def val_dataloader (dftF : Tensor3 → Tensor3) (sqrtF : ℚ → ℚ)
    (dm : Datamodule) : DataLoaderCfg :=
  { dataset := .make dftF sqrtF dm.X_test dm.y_test dm.fourier_transform
      dm.standardize (some dm.X_train)
    batch_size := dm.batch_size
    shuffle := false }

/-- `Datamodule.feature_mean_and_std`: the statistics of a dataset built from
the training tensors. -/
def feature_mean_and_std (dftF : Tensor3 → Tensor3) (sqrtF : ℚ → ℚ)
    (dm : Datamodule) : Mat × Mat :=
  let t := DiffusionDataset.make dftF sqrtF dm.X_train dm.y_train
    dm.fourier_transform dm.standardize none
  (t.feature_mean, t.feature_std)

/-! ### Filesystem model for the cache / download logic -/

/-- A filesystem is the list of existing paths. -/
abbrev FileSystem := List String

/-- `Path.exists`. -/
def pathExists (fs : FileSystem) (p : String) : Bool := fs.contains p

/-- `Datamodule.prepare_data`: if the namespaced directory is absent, create it
(`os.makedirs`) and run `download_data`, whose effect is to create the paths in
`downloadAdds`.  Returns the new filesystem and whether the download routine
was invoked. -/
def prepare_data (dataDir : String) (downloadAdds : List String)
    (fs : FileSystem) : FileSystem × Bool :=
  if pathExists fs dataDir then (fs, false)
  else (downloadAdds ++ dataDir :: fs, true)

/-- The cache-absence test of `MIMICIIIDatamodule.setup` (the NASDAQ and
droughts modules use the identical test). -/
def cacheAbsent (dataDir : String) (fs : FileSystem) : Bool :=
  !pathExists fs (dataDir ++ "/X_train.pt")
    || !pathExists fs (dataDir ++ "/X_test.pt")

/-- Modelled from the spec: `mimic_preprocess` (imported from
`src.fdiff.utils.preprocessing`, not part of this file) produces the two cached
tensor files `X_train.pt` / `X_test.pt` in the target directory as a side
effect. -/
def mimic_preprocess_effect (dataDir : String) (fs : FileSystem) : FileSystem :=
  (dataDir ++ "/X_train.pt") :: (dataDir ++ "/X_test.pt") :: fs

/-- The filesystem action of `MIMICIIIDatamodule.setup`: run the preprocessing
pipeline exactly when a cached tensor file is missing.  Returns the new
filesystem and whether preprocessing was invoked. -/
def mimicSetupFs (dataDir : String) (fs : FileSystem) : FileSystem × Bool :=
  if cacheAbsent dataDir fs then (mimic_preprocess_effect dataDir fs, true)
  else (fs, false)

/-- The error message of the assertion in `MIMICIIIDatamodule.download_data`. -/
def mimicMissingMessage (dataDir : String) : String :=
  "Dataset " ++ dataDir ++ "/all_hourly_data.h5 does not exist. "
    ++ "Because MIMIC-III is a restricted dataset, you need to download it yourself. "
    ++ "Our implementation relies on the default MIMIC-Extract preprocessed version of the dataset. "
    ++ "Please follow the instruction on https://github.com/MLforHealth/MIMIC_Extract/tree/master."

/-- `MIMICIIIDatamodule.download_data`: a pure precondition check — assert that
the raw file is present, otherwise fail with the remediation message.  It never
modifies the filesystem. -/
def mimicDownloadData (dataDir : String) (fs : FileSystem) :
    Except String FileSystem :=
  if pathExists fs (dataDir ++ "/all_hourly_data.h5") then .ok fs
  else .error (mimicMissingMessage dataDir)

/-! ### Per-adapter tensor post-processing (the part of `setup` that runs after
the cached tensors are loaded) -/

/-- Select the channels listed in `feats`, in order: `X[:, :, feats]`. -/
def selectCols (feats : List ℕ) (X : Tensor3) : Tensor3 :=
  X.map fun m => m.map fun r => feats.map fun i => r.getD i 0

/-- `X_train.std(0).mean(0)` in `MIMICIIIDatamodule.setup`: the per-channel
std over samples, averaged over time steps. -/
def mimicFeatKeys (sqrtF : ℚ → ℚ) (X : Tensor3) : List ℚ :=
  (List.range (dim2 X)).map fun c =>
    ((List.range (dim1 X)).map (fun t => entry (stdDim0 sqrtF X) t c)).sum
      / (dim1 X : ℚ)

/-- The comparison used to argsort in descending key order: `i` precedes `j`
when `keys[i] ≥ keys[j]`. -/
def keyGE (keys : List ℚ) (i j : ℕ) : Bool := keys.getD j 0 ≤ keys.getD i 0

/-- `torch.argsort(keys, descending=True)`: the indices of `keys` sorted by
decreasing key. -/
def argsortDescend (keys : List ℚ) : List ℕ :=
  (List.range keys.length).mergeSort (keyGE keys)

/-- The `top_feats` index list of `MIMICIIIDatamodule.setup`. -/
def mimicTopFeats (sqrtF : ℚ → ℚ) (X : Tensor3) (n_feats : ℕ) : List ℕ :=
  (argsortDescend (mimicFeatKeys sqrtF X)).take n_feats

/-- The tensor post-processing of `MIMICIIIDatamodule.setup`: keep the
`n_feats` channels of highest (time-averaged) std, computed on `X_train` and
applied to both tensors. -/
def mimicSetupLoaded (sqrtF : ℚ → ℚ) (n_feats : ℕ) (Xtr Xte : Tensor3) :
    Tensor3 × Tensor3 :=
  let top := mimicTopFeats sqrtF Xtr n_feats
  (selectCols top Xtr, selectCols top Xte)

/-- `X[:, :, :-1]`: drop the last channel of every row. -/
def dropLastCol (X : Tensor3) : Tensor3 :=
  X.map fun m => m.map fun r => r.dropLast

/-- The tensor post-processing of `NASDAQDatamodule.setup`: assert that both
loaded tensors have trailing shape (252, 6), then drop the volume channel.
`none` models the assertion failing. -/
def nasdaqSetupLoaded (Xtr Xte : Tensor3) : Option (Tensor3 × Tensor3) :=
  if dim1 Xtr == 252 && dim2 Xtr == 6 && dim1 Xte == 252 && dim2 Xte == 6 then
    some (dropLastCol Xtr, dropLastCol Xte)
  else none

/-- The fixed index set removed by `USDroughtsDatamodule.setup`. -/
def droughtsRemoved : List ℕ := [4, 5, 6, 7, 9]

/-- `feats = [i for i in range(X_train.shape[2]) if i not in` the removed set`]`. -/
def droughtsFeats (C : ℕ) : List ℕ :=
  (List.range C).filter (fun i => !droughtsRemoved.contains i)

/-- The tensor post-processing of `USDroughtsDatamodule.setup`: prune the
features correlated with T2M from both tensors, then run the two chained
assertions (`shape[1] % 365` equal and zero; channel counts equal and equal to
`len(feats)`).  `none` models an assertion failing. -/
def droughtsSetupLoaded (Xtr Xte : Tensor3) : Option (Tensor3 × Tensor3) :=
  let feats := droughtsFeats (dim2 Xtr)
  let A := selectCols feats Xtr
  let B := selectCols feats Xte
  if (dim1 A % 365 == dim1 B % 365) && (dim1 B % 365 == 0)
      && (dim2 A == dim2 B) && (dim2 B == feats.length) then
    some (A, B)
  else none

/-- `SyntheticDatamodule.download_data`: generate `2 * num_samples` sinusoids
of length `max_len` (the sine, the normal phases and the beta frequencies are
abstract parameters: they fix the entries, never the shape), split them into
the first `num_samples` train rows and the remaining test rows. -/
def synthetic_download_data (sinF : ℚ → ℚ) (phase frequency : ℕ → ℚ)
    (max_len num_samples : ℕ) : List (List ℚ) × List (List ℚ) :=
  let n_generated := 2 * num_samples
  let X := (List.range n_generated).map fun i =>
    (List.range max_len).map fun (t : ℕ) => sinF ((t : ℚ) * frequency i + phase i)
  (X.take num_samples, X.drop num_samples)

/-- `torch.tensor(...).unsqueeze(2)`: add a singleton channel dimension. -/
def unsqueeze2 (rows : List (List ℚ)) : Tensor3 :=
  rows.map fun r => r.map fun x => [x]

/-- `SyntheticDatamodule.setup` on the rows read back from the CSV files (the
CSV round trip is the identity on the stored values). -/
def syntheticSetupLoaded (train test : List (List ℚ)) : Tensor3 × Tensor3 :=
  (unsqueeze2 train, unsqueeze2 test)

/-! ### Helper lemmas -/

theorem tensorShape_iff (X : Tensor3) (n L C : ℕ) :
    tensorShapeb X n L C = true ↔
      (X.length = n ∧ ∀ m ∈ X, m.length = L ∧ ∀ r ∈ m, r.length = C) := by
  simp [tensorShapeb, matShapeb, List.all_eq_true]

theorem dim1_of_shape {X : Tensor3} {n L C : ℕ}
    (h : tensorShapeb X n L C = true) (hn : 1 ≤ n) : dim1 X = L := by
  obtain ⟨hlen, hall⟩ := (tensorShape_iff X n L C).mp h
  have hpos : 0 < X.length := by omega
  have : X.getD 0 [] = X[0] := List.getD_eq_getElem X [] hpos
  rw [dim1, this]
  exact (hall X[0] (X.getElem_mem hpos)).1

theorem dim2_of_shape {X : Tensor3} {n L C : ℕ}
    (h : tensorShapeb X n L C = true) (hn : 1 ≤ n) (hL : 1 ≤ L) : dim2 X = C := by
  obtain ⟨hlen, hall⟩ := (tensorShape_iff X n L C).mp h
  have hpos : 0 < X.length := by omega
  have h0 : X.getD 0 [] = X[0] := List.getD_eq_getElem X [] hpos
  obtain ⟨hmlen, hrow⟩ := hall X[0] (X.getElem_mem hpos)
  have hpos' : 0 < X[0].length := by omega
  have h1 : X[0].getD 0 [] = X[0][0] := List.getD_eq_getElem X[0] [] hpos'
  rw [dim2, h0, h1]
  exact hrow X[0][0] (X[0].getElem_mem hpos')

theorem matShape_iff (m : Mat) (L C : ℕ) :
    matShapeb m L C = true ↔ (m.length = L ∧ ∀ r ∈ m, r.length = C) := by
  simp [matShapeb, List.all_eq_true]

theorem shape_row {m : Mat} {L C : ℕ} (h : matShapeb m L C = true) {t : ℕ}
    (ht : t < L) : (m.getD t []).length = C := by
  obtain ⟨hlen, hall⟩ := (matShape_iff m L C).mp h
  have ht' : t < m.length := by omega
  rw [List.getD_eq_getElem _ _ ht']
  exact hall _ (m.getElem_mem ht')

theorem shape_mat {X : Tensor3} {n L C : ℕ} (h : tensorShapeb X n L C = true)
    {i : ℕ} (hi : i < n) : matShapeb (X.getD i []) L C = true := by
  obtain ⟨hlen, hall⟩ := (tensorShape_iff X n L C).mp h
  have hi' : i < X.length := by omega
  rw [List.getD_eq_getElem _ _ hi']
  exact (matShape_iff _ L C).mpr (hall X[i] (X.getElem_mem hi'))

theorem getD_zipWith (f : ℚ → ℚ → ℚ) (a b : Vec) (c : ℕ)
    (hca : c < a.length) (hcb : c < b.length) :
    (List.zipWith f a b).getD c 0 = f (a.getD c 0) (b.getD c 0) := by
  have hlen : c < (List.zipWith f a b).length := by
    rw [List.length_zipWith]; omega
  rw [List.getD_eq_getElem _ _ hlen, List.getElem_zipWith,
    List.getD_eq_getElem _ _ hca, List.getD_eq_getElem _ _ hcb]

theorem entry_matBinop (f : ℚ → ℚ → ℚ) {a b : Mat} {L C : ℕ}
    (ha : matShapeb a L C = true) (hb : matShapeb b L C = true)
    {t c : ℕ} (ht : t < L) (hc : c < C) :
    entry (matBinop f a b) t c = f (entry a t c) (entry b t c) := by
  obtain ⟨halen, harows⟩ := (matShape_iff a L C).mp ha
  obtain ⟨hblen, hbrows⟩ := (matShape_iff b L C).mp hb
  have hta : t < a.length := by omega
  have htb : t < b.length := by omega
  have hlen : t < (List.zipWith (List.zipWith f) a b).length := by
    simp only [List.length_zipWith]; omega
  simp only [entry, matBinop]
  rw [List.getD_eq_getElem _ _ hlen, List.getElem_zipWith,
    List.getD_eq_getElem _ _ hta, List.getD_eq_getElem _ _ htb]
  refine getD_zipWith f _ _ c ?_ ?_
  · rw [harows a[t] (a.getElem_mem hta)]; exact hc
  · rw [hbrows b[t] (b.getElem_mem htb)]; exact hc

theorem matBinop_shape (f : ℚ → ℚ → ℚ) {a b : Mat} {L C : ℕ}
    (ha : matShapeb a L C = true) (hb : matShapeb b L C = true) :
    matShapeb (matBinop f a b) L C = true := by
  obtain ⟨halen, harows⟩ := (matShape_iff a L C).mp ha
  obtain ⟨hblen, hbrows⟩ := (matShape_iff b L C).mp hb
  refine (matShape_iff _ L C).mpr ⟨?_, ?_⟩
  · simp only [matBinop, List.length_zipWith]; omega
  · intro r hr
    simp only [matBinop, List.mem_iff_getElem] at hr
    obtain ⟨t, hlt, rfl⟩ := hr
    rw [List.length_zipWith] at hlt
    rw [List.getElem_zipWith, List.length_zipWith]
    have h1 := harows a[t] (a.getElem_mem (by omega))
    have h2 := hbrows b[t] (b.getElem_mem (by omega))
    omega

theorem map_range_getD {α β : Type} (l : List α) (d0 : α) (g : α → β) :
    (List.range l.length).map (fun i => g (l.getD i d0)) = l.map g := by
  apply List.ext_getElem
  · simp
  · intro i h1 h2
    simp only [List.getElem_map, List.getElem_range]
    rw [List.getD_eq_getElem l d0 (by simpa using h2)]

theorem entry_range_map (L C : ℕ) (g : ℕ → ℕ → ℚ) {t c : ℕ}
    (ht : t < L) (hc : c < C) :
    entry ((List.range L).map fun t => (List.range C).map fun c => g t c) t c
      = g t c := by
  unfold entry
  have h1 : t < ((List.range L).map
      fun t => (List.range C).map fun c => g t c).length := by
    simpa using ht
  rw [List.getD_eq_getElem _ _ h1]
  simp only [List.getElem_map, List.getElem_range]
  have h2 : c < ((List.range C).map fun c => g t c).length := by simpa using hc
  rw [List.getD_eq_getElem _ _ h2]
  simp only [List.getElem_map, List.getElem_range]

theorem entry_meanDim0 (X : Tensor3) {t c : ℕ}
    (ht : t < dim1 X) (hc : c < dim2 X) :
    entry (meanDim0 X) t c = (colVals X t c).sum / (dim0 X : ℚ) :=
  entry_range_map _ _ _ ht hc

theorem entry_varDim0 (X : Tensor3) {t c : ℕ}
    (ht : t < dim1 X) (hc : c < dim2 X) :
    entry (varDim0 X) t c
      = ((colVals X t c).map
          (fun x => (x - (colVals X t c).sum / (dim0 X : ℚ)) ^ 2)).sum
        / ((dim0 X : ℚ) - 1) :=
  entry_range_map _ _ _ ht hc

theorem entry_map_map (f : ℚ → ℚ) (m : Mat) {t c : ℕ}
    (ht : t < m.length) (hc : c < (m.getD t []).length) :
    entry (m.map (fun r => r.map f)) t c = f (entry m t c) := by
  unfold entry
  have h1 : t < (m.map (fun r => r.map f)).length := by simpa using ht
  rw [List.getD_eq_getElem _ _ h1, List.getElem_map]
  have hc' : c < m[t].length := by
    rwa [List.getD_eq_getElem _ _ ht] at hc
  have h2 : c < (m[t].map f).length := by simpa using hc'
  rw [List.getD_eq_getElem _ _ h2, List.getElem_map,
    List.getD_eq_getElem _ _ ht, List.getD_eq_getElem _ _ hc']

theorem range_map_shape (L C : ℕ) (g : ℕ → ℕ → ℚ) :
    matShapeb ((List.range L).map fun t => (List.range C).map fun c => g t c)
      L C = true := by
  refine (matShape_iff _ _ _).mpr ⟨by simp, ?_⟩
  intro r hr
  obtain ⟨t, -, rfl⟩ := List.mem_map.mp hr
  simp

theorem map_map_shape (f : ℚ → ℚ) {m : Mat} {L C : ℕ}
    (h : matShapeb m L C = true) :
    matShapeb (m.map (fun r => r.map f)) L C = true := by
  obtain ⟨hlen, hall⟩ := (matShape_iff m L C).mp h
  refine (matShape_iff _ _ _).mpr ⟨by simpa using hlen, ?_⟩
  intro r hr
  obtain ⟨r0, hr0, rfl⟩ := List.mem_map.mp hr
  simpa using hall r0 hr0

theorem meanDim0_shape (X : Tensor3) :
    matShapeb (meanDim0 X) (dim1 X) (dim2 X) = true :=
  range_map_shape _ _ _

theorem varDim0_shape (X : Tensor3) :
    matShapeb (varDim0 X) (dim1 X) (dim2 X) = true :=
  range_map_shape _ _ _

theorem stdDim0_shape (sqrtF : ℚ → ℚ) (X : Tensor3) :
    matShapeb (stdDim0 sqrtF X) (dim1 X) (dim2 X) = true :=
  map_map_shape sqrtF (varDim0_shape X)

theorem entry_stdDim0 (sqrtF : ℚ → ℚ) (X : Tensor3) {t c : ℕ}
    (ht : t < dim1 X) (hc : c < dim2 X) :
    entry (stdDim0 sqrtF X) t c = sqrtF (entry (varDim0 X) t c) := by
  have hlen : (varDim0 X).length = dim1 X := by
    simp [varDim0]
  have hrow : ((varDim0 X).getD t []).length = dim2 X :=
    shape_row (varDim0_shape X) ht
  exact entry_map_map sqrtF (varDim0 X) (by omega) (by omega)

theorem sum_map_sub_const (l : List ℚ) (m : ℚ) :
    (l.map (fun x => x - m)).sum = l.sum - (l.length : ℚ) * m := by
  induction l with
  | nil => simp
  | cons a as ih =>
    simp only [List.map_cons, List.sum_cons, ih, List.length_cons]
    push_cast
    ring

theorem sum_map_div_const (l : List ℚ) (s : ℚ) :
    (l.map (fun x => x / s)).sum = l.sum / s := by
  induction l with
  | nil => simp
  | cons a as ih =>
    simp only [List.map_cons, List.sum_cons, ih]
    ring

theorem getitem_std_entry (d : DiffusionDataset) {n L C : ℕ} (i t c : ℕ)
    (hX : tensorShapeb d.X n L C = true)
    (hm : matShapeb d.feature_mean L C = true)
    (hs : matShapeb d.feature_std L C = true)
    (hi : i < n) (ht : t < L) (hc : c < C)
    (hstd : d.standardize = true) :
    entry (d.getitem i).X t c
      = (entry (d.X.getD i []) t c - entry d.feature_mean t c)
          / entry d.feature_std t c := by
  have hx0 : matShapeb (d.X.getD i []) L C = true := shape_mat hX hi
  have hinner := matBinop_shape (fun x1 x2 => x1 - x2) hx0 hm
  simp only [DiffusionDataset.getitem, hstd, if_true]
  rw [entry_matBinop _ hinner hs ht hc, entry_matBinop _ hx0 hm ht hc]

theorem selectCols_shape {X : Tensor3} {n L C : ℕ} (feats : List ℕ)
    (h : tensorShapeb X n L C = true) :
    tensorShapeb (selectCols feats X) n L feats.length = true := by
  obtain ⟨hlen, hall⟩ := (tensorShape_iff X n L C).mp h
  refine (tensorShape_iff _ _ _ _).mpr ⟨by simpa [selectCols] using hlen, ?_⟩
  intro m hm
  simp only [selectCols, List.mem_map] at hm
  obtain ⟨m0, hm0, rfl⟩ := hm
  refine ⟨by simpa using (hall m0 hm0).1, ?_⟩
  intro r hr
  obtain ⟨r0, hr0, rfl⟩ := List.mem_map.mp hr
  simp

theorem dropLastCol_shape {X : Tensor3} {n L C : ℕ}
    (h : tensorShapeb X n L C = true) :
    tensorShapeb (dropLastCol X) n L (C - 1) = true := by
  obtain ⟨hlen, hall⟩ := (tensorShape_iff X n L C).mp h
  refine (tensorShape_iff _ _ _ _).mpr ⟨by simpa [dropLastCol] using hlen, ?_⟩
  intro m hm
  simp only [dropLastCol, List.mem_map] at hm
  obtain ⟨m0, hm0, rfl⟩ := hm
  refine ⟨by simpa using (hall m0 hm0).1, ?_⟩
  intro r hr
  obtain ⟨r0, hr0, rfl⟩ := List.mem_map.mp hr
  rw [List.length_dropLast, (hall m0 hm0).2 r0 hr0]

theorem droughtsFeats_mem (C i : ℕ) :
    i ∈ droughtsFeats C ↔ (i < C ∧ ¬ i ∈ droughtsRemoved) := by
  simp [droughtsFeats, List.mem_filter, List.mem_range]

theorem droughtsFeats_length {C : ℕ} (hC : 10 ≤ C) :
    (droughtsFeats C).length = C - 5 := by
  induction C, hC using Nat.le_induction with
  | base => decide
  | succ n hn ih =>
    have hnot : n ∉ droughtsRemoved := by
      intro hmem
      simp only [droughtsRemoved, List.mem_cons, List.not_mem_nil,
        or_false] at hmem
      rcases hmem with h1 | h1 | h1 | h1 | h1 <;> omega
    have hstep : droughtsFeats (n + 1)
        = droughtsFeats n ++ [n] := by
      simp [droughtsFeats, List.range_succ, List.filter_append, hnot]
    rw [hstep, List.length_append, ih]
    simp only [List.length_singleton]
    omega

theorem nasdaqSetupLoaded_eq {Xtr Xte A B : Tensor3}
    (h : nasdaqSetupLoaded Xtr Xte = some (A, B)) :
    A = dropLastCol Xtr ∧ B = dropLastCol Xte := by
  simp only [nasdaqSetupLoaded] at h
  split at h
  · simp only [Option.some.injEq, Prod.mk.injEq] at h
    exact ⟨h.1.symm, h.2.symm⟩
  · cases h

theorem droughtsSetupLoaded_eq {Xtr Xte A B : Tensor3}
    (h : droughtsSetupLoaded Xtr Xte = some (A, B)) :
    A = selectCols (droughtsFeats (dim2 Xtr)) Xtr ∧
      B = selectCols (droughtsFeats (dim2 Xtr)) Xte ∧
      dim1 A % 365 = 0 ∧ dim1 B % 365 = 0 := by
  simp only [droughtsSetupLoaded] at h
  split at h
  case isTrue hcond =>
    simp only [Option.some.injEq, Prod.mk.injEq] at h
    obtain ⟨hA, hB⟩ := h
    simp only [Bool.and_eq_true, beq_iff_eq] at hcond
    subst hA
    subst hB
    refine ⟨rfl, rfl, ?_, ?_⟩ <;> omega
  case isFalse => cases h

theorem val_stats_eq_train_stats (dftF : Tensor3 → Tensor3) (sqrtF : ℚ → ℚ)
    (dm : Datamodule) :
    (val_dataloader dftF sqrtF dm).dataset.feature_mean
        = (train_dataloader dftF sqrtF dm).dataset.feature_mean ∧
      (val_dataloader dftF sqrtF dm).dataset.feature_std
        = (train_dataloader dftF sqrtF dm).dataset.feature_std := by
  cases h : dm.fourier_transform <;>
    simp [val_dataloader, train_dataloader, DiffusionDataset.make, h]

/-! ### Claims -/

/-- C1: the dataset built by `val_dataloader` computes its standardization
statistics from `X_train` alone: its `(feature_mean, feature_std)` equal those
of a `DiffusionDataset` built from `X_train` (with the same
`fourier_transform` flag), and in particular never depend on the wrapped
validation data. -/
theorem C1_val_stats_from_train_only (dftF : Tensor3 → Tensor3) (sqrtF : ℚ → ℚ)
    (dm : Datamodule) :
    ((val_dataloader dftF sqrtF dm).dataset.feature_mean,
        (val_dataloader dftF sqrtF dm).dataset.feature_std)
      = ((DiffusionDataset.make dftF sqrtF dm.X_train dm.y_train
            dm.fourier_transform dm.standardize none).feature_mean,
         (DiffusionDataset.make dftF sqrtF dm.X_train dm.y_train
            dm.fourier_transform dm.standardize none).feature_std) := by
  have h := val_stats_eq_train_stats dftF sqrtF dm
  simp only [train_dataloader] at h
  exact Prod.ext_iff.mpr h

/-- C2 counterexample: the claim states that the test dataset standardizes
when the module's `standardize` flag is set; but `test_dataloader` never
forwards the flag, so for a module with `standardize = true` the test
dataset's `standardize` field is `false`. -/
theorem C2_counterexample_test_not_standardized :
    ¬ ((test_dataloader id id
          { batch_size := 32, fourier_transform := false, standardize := true,
            X_train := [[[1]]], y_train := none,
            X_test := [[[2]]], y_test := none }).dataset.standardize
        = ({ batch_size := 32, fourier_transform := false, standardize := true,
             X_train := [[[1]]], y_train := none,
             X_test := [[[2]]], y_test := none : Datamodule }).standardize) := by
  decide

/-- C2 (amended): the train loader shuffles and the test and validation
loaders do not; the validation dataset keeps the module's `standardize` flag
and uses the training statistics; the test dataset never standardizes (the
module's `standardize` flag is not forwarded to it). -/
theorem C2_amended_loader_flags (dftF : Tensor3 → Tensor3) (sqrtF : ℚ → ℚ)
    (dm : Datamodule) :
    (train_dataloader dftF sqrtF dm).shuffle = true ∧
      (test_dataloader dftF sqrtF dm).shuffle = false ∧
      (val_dataloader dftF sqrtF dm).shuffle = false ∧
      (val_dataloader dftF sqrtF dm).dataset.standardize = dm.standardize ∧
      ((val_dataloader dftF sqrtF dm).dataset.feature_mean
          = (train_dataloader dftF sqrtF dm).dataset.feature_mean ∧
        (val_dataloader dftF sqrtF dm).dataset.feature_std
          = (train_dataloader dftF sqrtF dm).dataset.feature_std) ∧
      (test_dataloader dftF sqrtF dm).dataset.standardize = false := by
  refine ⟨rfl, rfl, rfl, rfl, val_stats_eq_train_stats dftF sqrtF dm, rfl⟩

/-- C3 counterexample: with standardization disabled, `__getitem__` returns
`self.X[index]`, a view of the stored tensor (not a copy): for a concrete
dataset the returned tensor aliases storage and overwriting it changes the
stored `X`, refuting the claim that the access always returns a copy. -/
theorem C3_counterexample_getitem_aliases :
    ((DiffusionDataset.make id id [[[1]], [[2]]] none false false
        none).getitem 0).Xaliased = true ∧
      storedXAfterSet
          (DiffusionDataset.make id id [[[1]], [[2]]] none false false none)
          0 [[5]]
        ≠ (DiffusionDataset.make id id [[[1]], [[2]]] none false false
            none).X := by
  decide

/-- C3 (amended): when standardization is enabled, `__getitem__` returns a
freshly allocated tensor (no aliasing, so overwriting the returned value
leaves the stored `X` unchanged) whose (t, c) entry is
`(X[index][t][c] - mean[t][c]) / std[t][c]`; when standardization is disabled
the returned value is `X[index]` itself, a view aliasing storage; in both
modes the label `y[index]` is attached whenever labels are present. -/
theorem C3_amended_getitem_semantics (d : DiffusionDataset) (v : Mat)
    {n L C : ℕ} (index t c : ℕ)
    (hX : tensorShapeb d.X n L C = true)
    (hm : matShapeb d.feature_mean L C = true)
    (hs : matShapeb d.feature_std L C = true)
    (hi : index < n) (ht : t < L) (hc : c < C) :
    (d.standardize = true →
        (d.getitem index).Xaliased = false ∧
          entry (d.getitem index).X t c
            = (entry (d.X.getD index []) t c - entry d.feature_mean t c)
                / entry d.feature_std t c ∧
          storedXAfterSet d index v = d.X) ∧
      (d.standardize = false →
        (d.getitem index).Xaliased = true ∧
          (d.getitem index).X = d.X.getD index []) ∧
      (∀ ys, d.y = some ys →
        (d.getitem index).y = some (ys.getD index 0)) := by
  refine ⟨fun hstd => ⟨?_, ?_, ?_⟩, fun hstd => ⟨?_, ?_⟩, fun ys hy => ?_⟩
  · simp [DiffusionDataset.getitem, hstd]
  · exact getitem_std_entry d index t c hX hm hs hi ht hc hstd
  · simp [storedXAfterSet, DiffusionDataset.getitem, hstd]
  · simp [DiffusionDataset.getitem, hstd]
  · simp [DiffusionDataset.getitem, hstd]
  · simp [DiffusionDataset.getitem, hy]

/-- Witness for the amended C3 at a concrete standardizing dataset with
labels. -/
theorem C3_amended_witness :
    (let d := DiffusionDataset.make id id [[[2, 4]], [[4, 8]]] (some [1, 2])
        false true none
    (d.standardize = true →
        (d.getitem 0).Xaliased = false ∧
          entry (d.getitem 0).X 0 0
            = (entry (d.X.getD 0 []) 0 0 - entry d.feature_mean 0 0)
                / entry d.feature_std 0 0 ∧
          storedXAfterSet d 0 [[0, 0]] = d.X) ∧
      (d.standardize = false →
        (d.getitem 0).Xaliased = true ∧
          (d.getitem 0).X = d.X.getD 0 []) ∧
      (∀ ys, d.y = some ys →
        (d.getitem 0).y = some (ys.getD 0 0))) :=
  C3_amended_getitem_semantics
    (DiffusionDataset.make id id [[[2, 4]], [[4, 8]]] (some [1, 2])
      false true none)
    [[0, 0]] (n := 2) (L := 1) (C := 2) 0 0 0
    (by decide) (by decide) (by decide) (by decide) (by decide) (by decide)

/-- C5: `prepare_data` invokes the download routine exactly when the
namespaced directory is absent, and a repeated call after a first one never
downloads again; `MIMICIIIDatamodule.setup` invokes the preprocessing routine
exactly when a cached tensor file is missing, and a repeated call after a
first one never preprocesses again. -/
theorem C5_prepare_and_setup_idempotent (dataDir : String)
    (downloadAdds : List String) (fs : FileSystem) :
    ((prepare_data dataDir downloadAdds fs).2 = true
        ↔ pathExists fs dataDir = false) ∧
      (prepare_data dataDir downloadAdds
        (prepare_data dataDir downloadAdds fs).1).2 = false ∧
      ((mimicSetupFs dataDir fs).2 = true ↔ cacheAbsent dataDir fs = true) ∧
      (mimicSetupFs dataDir (mimicSetupFs dataDir fs).1).2 = false := by
  refine ⟨?_, ?_, ?_, ?_⟩
  · by_cases h : dataDir ∈ fs <;> simp [prepare_data, pathExists, h]
  · by_cases h : dataDir ∈ fs <;> simp [prepare_data, pathExists, h]
  · by_cases h : cacheAbsent dataDir fs <;> simp [mimicSetupFs, h]
  · by_cases h1 : dataDir ++ "/X_train.pt" ∈ fs <;>
      by_cases h2 : dataDir ++ "/X_test.pt" ∈ fs <;>
      simp [mimicSetupFs, cacheAbsent, mimic_preprocess_effect, pathExists,
        h1, h2]

/-- C9: `MIMICIIIDatamodule.download_data` is a pure precondition check: when
`all_hourly_data.h5` is absent from the namespaced directory it fails with the
descriptive remediation message, and when the file is present it succeeds and
leaves the filesystem unchanged. -/
theorem C9_mimic_precondition_check (dataDir : String) (fs : FileSystem) :
    (pathExists fs (dataDir ++ "/all_hourly_data.h5") = false →
        mimicDownloadData dataDir fs = .error (mimicMissingMessage dataDir)) ∧
      (pathExists fs (dataDir ++ "/all_hourly_data.h5") = true →
        mimicDownloadData dataDir fs = .ok fs) := by
  constructor <;> intro h <;> simp [mimicDownloadData, h]

set_option maxRecDepth 100000 in
/-- C4 counterexample: `USDroughtsDatamodule.setup` only checks that both
sequence lengths are divisible by 365 — it never compares them.  A cached pair
with 365 train steps and 730 test steps passes every assertion, and setup
completes with `X_train.shape[1:] ≠ X_test.shape[1:]`. -/
theorem C4_counterexample_droughts_unequal_seq_len :
    (droughtsSetupLoaded
        [List.replicate 365 (List.replicate 12 (0 : ℚ))]
        [List.replicate 730 (List.replicate 12 (0 : ℚ))]).isSome = true ∧
      ¬ ((dim1 ((droughtsSetupLoaded
              [List.replicate 365 (List.replicate 12 (0 : ℚ))]
              [List.replicate 730 (List.replicate 12 (0 : ℚ))]).getD
              ([], [])).1,
          dim2 ((droughtsSetupLoaded
              [List.replicate 365 (List.replicate 12 (0 : ℚ))]
              [List.replicate 730 (List.replicate 12 (0 : ℚ))]).getD
              ([], [])).1)
        = (dim1 ((droughtsSetupLoaded
              [List.replicate 365 (List.replicate 12 (0 : ℚ))]
              [List.replicate 730 (List.replicate 12 (0 : ℚ))]).getD
              ([], [])).2,
           dim2 ((droughtsSetupLoaded
              [List.replicate 365 (List.replicate 12 (0 : ℚ))]
              [List.replicate 730 (List.replicate 12 (0 : ℚ))]).getD
              ([], [])).2)) := by
  decide

/-- C4 (amended): after `NASDAQDatamodule.setup` completes, both tensors have
trailing shape (252, 5), so `X_train.shape[1:] = X_test.shape[1:]`; after
`USDroughtsDatamodule.setup` completes the two tensors agree on the channel
count (both keep exactly the `droughtsFeats` channels) and both sequence
lengths are divisible by 365, but the sequence lengths themselves need not be
equal. -/
theorem C4_amended_trailing_shapes :
    (∀ (n n' : ℕ) (Xtr Xte A B : Tensor3),
        tensorShapeb Xtr n 252 6 = true → tensorShapeb Xte n' 252 6 = true →
        nasdaqSetupLoaded Xtr Xte = some (A, B) →
        tensorShapeb A n 252 5 = true ∧ tensorShapeb B n' 252 5 = true) ∧
      (∀ (n L C n' L' C' : ℕ) (Xtr Xte A B : Tensor3),
        tensorShapeb Xtr n L C = true → tensorShapeb Xte n' L' C' = true →
        1 ≤ n → 1 ≤ L → 1 ≤ n' →
        droughtsSetupLoaded Xtr Xte = some (A, B) →
        tensorShapeb A n L ((droughtsFeats C).length) = true ∧
          tensorShapeb B n' L' ((droughtsFeats C).length) = true ∧
          L % 365 = 0 ∧ L' % 365 = 0) := by
  constructor
  · intro n n' Xtr Xte A B htr hte hsome
    obtain ⟨rfl, rfl⟩ := nasdaqSetupLoaded_eq hsome
    exact ⟨dropLastCol_shape htr, dropLastCol_shape hte⟩
  · intro n L C n' L' C' Xtr Xte A B htr hte hn hL hn' hsome
    obtain ⟨hA, hB, hA365, hB365⟩ := droughtsSetupLoaded_eq hsome
    rw [dim2_of_shape htr hn hL] at hA hB
    subst hA
    subst hB
    have hAshape := selectCols_shape (droughtsFeats C) htr
    have hBshape := selectCols_shape (droughtsFeats C) hte
    refine ⟨hAshape, hBshape, ?_, ?_⟩
    · rw [dim1_of_shape hAshape hn] at hA365
      exact hA365
    · rw [dim1_of_shape hBshape hn'] at hB365
      exact hB365

set_option maxRecDepth 100000 in
/-- Witness for the amended C4: a NASDAQ-shaped cache pair, and a droughts
cache pair whose sequence lengths are 365 and 730. -/
theorem C4_amended_witness :
    (tensorShapeb
        (dropLastCol [List.replicate 252 (List.replicate 6 (0 : ℚ))])
        1 252 5 = true ∧
      tensorShapeb
        (dropLastCol [List.replicate 252 (List.replicate 6 (0 : ℚ))])
        1 252 5 = true) ∧
      (tensorShapeb
          (selectCols (droughtsFeats 12)
            [List.replicate 365 (List.replicate 12 (0 : ℚ))])
          1 365 ((droughtsFeats 12).length) = true ∧
        tensorShapeb
          (selectCols (droughtsFeats 12)
            [List.replicate 730 (List.replicate 12 (0 : ℚ))])
          1 730 ((droughtsFeats 12).length) = true ∧
        365 % 365 = 0 ∧ 730 % 365 = 0) :=
  ⟨C4_amended_trailing_shapes.1 1 1
      [List.replicate 252 (List.replicate 6 (0 : ℚ))]
      [List.replicate 252 (List.replicate 6 (0 : ℚ))]
      (dropLastCol [List.replicate 252 (List.replicate 6 (0 : ℚ))])
      (dropLastCol [List.replicate 252 (List.replicate 6 (0 : ℚ))])
      (by decide) (by decide) rfl,
   C4_amended_trailing_shapes.2 1 365 12 1 730 12
      [List.replicate 365 (List.replicate 12 (0 : ℚ))]
      [List.replicate 730 (List.replicate 12 (0 : ℚ))]
      (selectCols (droughtsFeats 12)
        [List.replicate 365 (List.replicate 12 (0 : ℚ))])
      (selectCols (droughtsFeats 12)
        [List.replicate 730 (List.replicate 12 (0 : ℚ))])
      (by decide) (by decide) (by decide) (by decide) (by decide) rfl⟩

set_option maxRecDepth 100000 in
/-- C6 counterexample: the drought pruning removes only the in-range indices.
For a cached pair with 8 channels the comprehension removes the 4 indices
4, 5, 6, 7 (9 is out of range), so the resulting channel count is 4, not
8 - 5 = 3, refuting the claim for arbitrary loaded tensor pairs. -/
theorem C6_counterexample_few_channels :
    (droughtsSetupLoaded
        [List.replicate 365 (List.replicate 8 (0 : ℚ))]
        [List.replicate 365 (List.replicate 8 (0 : ℚ))]).isSome = true ∧
      dim2 [List.replicate 365 (List.replicate 8 (0 : ℚ))] = 8 ∧
      dim2 ((droughtsSetupLoaded
          [List.replicate 365 (List.replicate 8 (0 : ℚ))]
          [List.replicate 365 (List.replicate 8 (0 : ℚ))]).getD ([], [])).1
        ≠ dim2 [List.replicate 365 (List.replicate 8 (0 : ℚ))] - 5 := by
  decide

/-- C6 (amended): whenever the loaded training tensor has at least 10
channels, the drought pruning removes exactly the five fixed indices
4, 5, 6, 7, 9 (an index is kept iff it is in range and not one of those), the
kept-index list has length C - 5, and after a successful setup both result
tensors have exactly C - 5 channels — for any number of input rows. -/
theorem C6_amended_drought_pruning (C : ℕ) (hC : 10 ≤ C) :
    (∀ i, i ∈ droughtsFeats C ↔ (i < C ∧ ¬ i ∈ droughtsRemoved)) ∧
      (droughtsFeats C).length = C - 5 ∧
      (∀ (n L n' L' C' : ℕ) (Xtr Xte A B : Tensor3),
        tensorShapeb Xtr n L C = true → tensorShapeb Xte n' L' C' = true →
        1 ≤ n → 1 ≤ L →
        droughtsSetupLoaded Xtr Xte = some (A, B) →
        tensorShapeb A n L (C - 5) = true ∧
          tensorShapeb B n' L' (C - 5) = true) := by
  refine ⟨droughtsFeats_mem C, droughtsFeats_length hC, ?_⟩
  intro n L n' L' C' Xtr Xte A B htr hte hn hL hsome
  obtain ⟨hA, hB, -, -⟩ := droughtsSetupLoaded_eq hsome
  rw [dim2_of_shape htr hn hL] at hA hB
  subst hA
  subst hB
  rw [← droughtsFeats_length hC]
  exact ⟨selectCols_shape (droughtsFeats C) htr,
    selectCols_shape (droughtsFeats C) hte⟩

set_option maxRecDepth 100000 in
/-- Witness for the amended C6 at 12 input channels: 7 channels remain. -/
theorem C6_amended_witness :
    ((7 : ℕ) ∈ droughtsFeats 12 ↔ (7 < 12 ∧ ¬ (7 : ℕ) ∈ droughtsRemoved)) ∧
      (droughtsFeats 12).length = 12 - 5 ∧
      (tensorShapeb
          (selectCols (droughtsFeats 12)
            [List.replicate 365 (List.replicate 12 (0 : ℚ))])
          1 365 (12 - 5) = true ∧
        tensorShapeb
          (selectCols (droughtsFeats 12)
            [List.replicate 365 (List.replicate 12 (0 : ℚ))])
          1 365 (12 - 5) = true) :=
  ⟨(C6_amended_drought_pruning 12 (by decide)).1 7,
   (C6_amended_drought_pruning 12 (by decide)).2.1,
   (C6_amended_drought_pruning 12 (by decide)).2.2 1 365 1 365 12
      [List.replicate 365 (List.replicate 12 (0 : ℚ))]
      [List.replicate 365 (List.replicate 12 (0 : ℚ))]
      (selectCols (droughtsFeats 12)
        [List.replicate 365 (List.replicate 12 (0 : ℚ))])
      (selectCols (droughtsFeats 12)
        [List.replicate 365 (List.replicate 12 (0 : ℚ))])
      (by decide) (by decide) (by decide) (by decide) rfl⟩

theorem synthetic_download_lengths (sinF : ℚ → ℚ) (phase frequency : ℕ → ℚ)
    (max_len num_samples : ℕ) :
    (synthetic_download_data sinF phase frequency max_len num_samples).1.length
        = num_samples ∧
      (synthetic_download_data sinF phase frequency max_len num_samples).2.length
        = num_samples ∧
      (∀ r ∈ (synthetic_download_data sinF phase frequency max_len num_samples).1,
        r.length = max_len) ∧
      (∀ r ∈ (synthetic_download_data sinF phase frequency max_len num_samples).2,
        r.length = max_len) := by
  refine ⟨?_, ?_, ?_, ?_⟩
  · simp [synthetic_download_data]; omega
  · simp [synthetic_download_data]; omega
  · intro r hr
    have hr' := List.take_subset _ _ hr
    simp only [synthetic_download_data, List.mem_map] at hr'
    obtain ⟨i, -, rfl⟩ := hr'
    simp only [List.length_map, List.length_range]
  · intro r hr
    have hr' := List.drop_subset _ _ hr
    simp only [synthetic_download_data, List.mem_map] at hr'
    obtain ⟨i, -, rfl⟩ := hr'
    simp only [List.length_map, List.length_range]

theorem unsqueeze2_shape (rows : List (List ℚ)) (n L : ℕ)
    (hlen : rows.length = n) (hrows : ∀ r ∈ rows, r.length = L) :
    tensorShapeb (unsqueeze2 rows) n L 1 = true := by
  simp only [tensorShapeb, unsqueeze2, matShapeb, Bool.and_eq_true,
    List.all_eq_true, List.mem_map, beq_iff_eq]
  refine ⟨by simpa using hlen, ?_⟩
  rintro m ⟨r, hr, rfl⟩
  constructor
  · simpa using hrows r hr
  · intro v hv
    obtain ⟨x, hx, rfl⟩ := List.mem_map.mp hv
    rfl

/-- C7: for the synthetic adapter with `max_len = 100` and
`num_samples = 1000`, `download_data` produces exactly 1000 training rows and
1000 test rows of length 100 each, and `setup` yields a training tensor of
shape (1000, 100, 1) — for every realization of the random phases and
frequencies and every sine implementation. -/
theorem C7_synthetic_shapes (sinF : ℚ → ℚ) (phase frequency : ℕ → ℚ) :
    (synthetic_download_data sinF phase frequency 100 1000).1.length = 1000 ∧
      (synthetic_download_data sinF phase frequency 100 1000).2.length = 1000 ∧
      ((synthetic_download_data sinF phase frequency 100 1000).1.all
        (fun r => r.length == 100)) = true ∧
      ((synthetic_download_data sinF phase frequency 100 1000).2.all
        (fun r => r.length == 100)) = true ∧
      tensorShapeb
        (syntheticSetupLoaded
          (synthetic_download_data sinF phase frequency 100 1000).1
          (synthetic_download_data sinF phase frequency 100 1000).2).1
        1000 100 1 = true := by
  obtain ⟨h1, h2, h3, h4⟩ :=
    synthetic_download_lengths sinF phase frequency 100 1000
  refine ⟨h1, h2, ?_, ?_, ?_⟩
  · simp only [List.all_eq_true, beq_iff_eq]
    exact h3
  · simp only [List.all_eq_true, beq_iff_eq]
    exact h4
  · simp only [syntheticSetupLoaded]
    exact unsqueeze2_shape _ _ _ h1 h3

/-- Witness for C9 at concrete filesystems: one missing the raw file, one
containing it. -/
theorem C9_witness :
    mimicDownloadData "data/mimiciii" []
        = .error (mimicMissingMessage "data/mimiciii") ∧
      mimicDownloadData "data/mimiciii" ["data/mimiciii/all_hourly_data.h5"]
        = .ok ["data/mimiciii/all_hourly_data.h5"] :=
  ⟨(C9_mimic_precondition_check "data/mimiciii" []).1 rfl,
   (C9_mimic_precondition_check "data/mimiciii"
      ["data/mimiciii/all_hourly_data.h5"]).2 (by simp [pathExists])⟩

theorem argsortDescend_perm (keys : List ℚ) :
    (argsortDescend keys).Perm (List.range keys.length) :=
  List.mergeSort_perm _ _

theorem argsortDescend_length (keys : List ℚ) :
    (argsortDescend keys).length = keys.length := by
  rw [(argsortDescend_perm keys).length_eq, List.length_range]

theorem argsortDescend_sorted (keys : List ℚ) :
    (argsortDescend keys).Pairwise
      (fun i j => keys.getD j 0 ≤ keys.getD i 0) := by
  have htrans : ∀ a b c : ℕ, keyGE keys a b = true → keyGE keys b c = true →
      keyGE keys a c = true := by
    intro a b c hab hbc
    simp only [keyGE, decide_eq_true_eq] at hab hbc ⊢
    exact le_trans hbc hab
  have htotal : ∀ a b : ℕ, (keyGE keys a b || keyGE keys b a) = true := by
    intro a b
    simp only [keyGE, Bool.or_eq_true, decide_eq_true_eq]
    exact le_total _ _
  have h := List.sorted_mergeSort htrans htotal (List.range keys.length)
  exact h.imp (fun hab => by simpa [keyGE] using hab)

theorem mimicFeatKeys_length (sqrtF : ℚ → ℚ) (X : Tensor3) :
    (mimicFeatKeys sqrtF X).length = dim2 X := by
  simp [mimicFeatKeys]

theorem mimicTopFeats_length (sqrtF : ℚ → ℚ) (X : Tensor3) (n_feats : ℕ) :
    (mimicTopFeats sqrtF X n_feats).length = min n_feats (dim2 X) := by
  simp [mimicTopFeats, argsortDescend_length, mimicFeatKeys_length]

theorem mimicTopFeats_mem {sqrtF : ℚ → ℚ} {X : Tensor3} {n_feats i : ℕ}
    (hi : i ∈ mimicTopFeats sqrtF X n_feats) : i < dim2 X := by
  simp only [mimicTopFeats] at hi
  have h1 : i ∈ argsortDescend (mimicFeatKeys sqrtF X) :=
    List.take_subset _ _ hi
  have h2 : i ∈ List.range (mimicFeatKeys sqrtF X).length :=
    (argsortDescend_perm _).mem_iff.mp h1
  rw [List.mem_range, mimicFeatKeys_length] at h2
  exact h2

theorem getD_map_default {α β : Type} (f : α → β) (l : List α) (j : ℕ)
    (d : α) (db : β) (hj : j < l.length) :
    (l.map f).getD j db = f (l.getD j d) := by
  rw [List.getD_eq_getElem _ _ (by simpa using hj), List.getElem_map,
    List.getD_eq_getElem _ _ hj]

theorem entry3_selectCols (feats : List ℕ) (X : Tensor3) (s t j : ℕ)
    (hj : j < feats.length) :
    entry3 (selectCols feats X) s t j = entry3 X s t (feats.getD j 0) := by
  unfold entry3 entry selectCols
  simp only [List.getD_eq_getElem?_getD, List.getElem?_map]
  cases hXs : X[s]? with
  | none => simp
  | some m =>
    simp only [Option.map_some', Option.getD_some, List.getElem?_map]
    cases hmt : m[t]? with
    | none => simp
    | some r =>
      simp only [Option.map_some', Option.getD_some, List.getElem?_map]
      have hfj : feats[j]? = some (feats.getD j 0) := by
        rw [List.getD_eq_getElem _ _ hj]
        exact List.getElem?_eq_getElem hj
      rw [hfj]
      simp

/-- C10: `MIMICIIIDatamodule.setup` computes the selected channel list from
`X_train` alone — the per-channel stds over samples, averaged over time steps,
argsorted by decreasing key, then truncated to `n_feats` — and applies that
same list to both tensors: the kept index list has length
`min n_feats C`, all its entries are valid channels of the training tensor,
its keys are sorted in descending order, both result tensors end with
`min n_feats C` channels, and output channel `j` of the train (resp. test)
tensor is input channel `top_feats[j]` of `X_train` (resp. `X_test`). -/
theorem C10_mimic_top_variance_selection (sqrtF : ℚ → ℚ) (n_feats : ℕ)
    (n L C n' L' : ℕ) (Xtr Xte : Tensor3)
    (htr : tensorShapeb Xtr n L C = true)
    (hte : tensorShapeb Xte n' L' C = true)
    (hn : 1 ≤ n) (hL : 1 ≤ L) :
    (mimicTopFeats sqrtF Xtr n_feats).length = min n_feats C ∧
      (∀ i ∈ mimicTopFeats sqrtF Xtr n_feats, i < C) ∧
      ((mimicTopFeats sqrtF Xtr n_feats).map
          (fun i => (mimicFeatKeys sqrtF Xtr).getD i 0)).Sorted (· ≥ ·) ∧
      tensorShapeb (mimicSetupLoaded sqrtF n_feats Xtr Xte).1 n L
        (min n_feats C) = true ∧
      tensorShapeb (mimicSetupLoaded sqrtF n_feats Xtr Xte).2 n' L'
        (min n_feats C) = true ∧
      (∀ s t j, j < (mimicTopFeats sqrtF Xtr n_feats).length →
        entry3 (mimicSetupLoaded sqrtF n_feats Xtr Xte).1 s t j
            = entry3 Xtr s t ((mimicTopFeats sqrtF Xtr n_feats).getD j 0) ∧
          entry3 (mimicSetupLoaded sqrtF n_feats Xtr Xte).2 s t j
            = entry3 Xte s t ((mimicTopFeats sqrtF Xtr n_feats).getD j 0)) := by
  have hd2 : dim2 Xtr = C := dim2_of_shape htr hn hL
  have hlen : (mimicTopFeats sqrtF Xtr n_feats).length = min n_feats C := by
    rw [mimicTopFeats_length, hd2]
  refine ⟨hlen, ?_, ?_, ?_, ?_, ?_⟩
  · intro i hi
    have := mimicTopFeats_mem hi
    omega
  · rw [List.Sorted, List.pairwise_map]
    have hp := argsortDescend_sorted (mimicFeatKeys sqrtF Xtr)
    exact List.Pairwise.sublist (List.take_sublist _ _) hp
  · rw [← hlen]
    exact selectCols_shape _ htr
  · rw [← hlen]
    exact selectCols_shape _ hte
  · intro s t j hj
    constructor
    · exact entry3_selectCols _ Xtr s t j hj
    · exact entry3_selectCols _ Xte s t j hj

/-- Witness for C10 at a concrete 3-channel pair with `n_feats = 2`. -/
theorem C10_witness :
    (mimicTopFeats id [[[1, 2, 3]], [[2, 4, 6]]] 2).length = min 2 3 ∧
      (∀ i ∈ mimicTopFeats id [[[1, 2, 3]], [[2, 4, 6]]] 2, i < 3) ∧
      ((mimicTopFeats id [[[1, 2, 3]], [[2, 4, 6]]] 2).map
          (fun i => (mimicFeatKeys id [[[1, 2, 3]], [[2, 4, 6]]]).getD i 0)
        ).Sorted (· ≥ ·) ∧
      tensorShapeb
        (mimicSetupLoaded id 2 [[[1, 2, 3]], [[2, 4, 6]]] [[[0, 0, 0]]]).1
        2 1 (min 2 3) = true ∧
      tensorShapeb
        (mimicSetupLoaded id 2 [[[1, 2, 3]], [[2, 4, 6]]] [[[0, 0, 0]]]).2
        1 1 (min 2 3) = true ∧
      (∀ s t j, j < (mimicTopFeats id [[[1, 2, 3]], [[2, 4, 6]]] 2).length →
        entry3
            (mimicSetupLoaded id 2 [[[1, 2, 3]], [[2, 4, 6]]] [[[0, 0, 0]]]).1
            s t j
            = entry3 [[[1, 2, 3]], [[2, 4, 6]]] s t
                ((mimicTopFeats id [[[1, 2, 3]], [[2, 4, 6]]] 2).getD j 0) ∧
          entry3
            (mimicSetupLoaded id 2 [[[1, 2, 3]], [[2, 4, 6]]] [[[0, 0, 0]]]).2
            s t j
            = entry3 [[[0, 0, 0]]] s t
                ((mimicTopFeats id [[[1, 2, 3]], [[2, 4, 6]]] 2).getD j 0)) :=
  C10_mimic_top_variance_selection id 2 2 1 3 1 1
    [[[1, 2, 3]], [[2, 4, 6]]] [[[0, 0, 0]]]
    (by decide) (by decide) (by decide) (by decide)

/-- C8: a `DiffusionDataset` built with standardization enabled and the
reference tensor defaulting to `X` itself serves samples whose mean over the
whole set is exactly 0 and whose unbiased variance (the square of the std
estimator `torch.std` uses, so the std itself is exactly 1) is exactly 1, at
every position (t, c) — provided the per-position std is nonzero, `sqrtF`
being the square-root function realizing `torch.std`. -/
theorem C8_self_standardization (dftF : Tensor3 → Tensor3) (sqrtF : ℚ → ℚ)
    (X : Tensor3) {n L C : ℕ} (t c : ℕ)
    (hX : tensorShapeb X n L C = true) (hn : 2 ≤ n) (ht : t < L) (hc : c < C)
    (hsq : sqrtF (entry (varDim0 X) t c) ^ 2 = entry (varDim0 X) t c)
    (hnz : sqrtF (entry (varDim0 X) t c) ≠ 0) :
    lmean (sampleEntries
        (DiffusionDataset.make dftF sqrtF X none false true none) n t c) = 0 ∧
      lvar (sampleEntries
        (DiffusionDataset.make dftF sqrtF X none false true none) n t c)
        = 1 := by
  have hn1 : 1 ≤ n := by omega
  have hL1 : 1 ≤ L := by omega
  have hd1 : dim1 X = L := dim1_of_shape hX hn1
  have hd2 : dim2 X = C := dim2_of_shape hX hn1 hL1
  have hXlen : X.length = n := ((tensorShape_iff X n L C).mp hX).1
  set d := DiffusionDataset.make dftF sqrtF X none false true none with hd
  have hdX : d.X = X := rfl
  have hdm : d.feature_mean = meanDim0 X := rfl
  have hds : d.feature_std = stdDim0 sqrtF X := rfl
  have hdstd : d.standardize = true := rfl
  have hm : matShapeb d.feature_mean L C = true := by
    rw [hdm, ← hd1, ← hd2]; exact meanDim0_shape X
  have hsshape : matShapeb d.feature_std L C = true := by
    rw [hds, ← hd1, ← hd2]; exact stdDim0_shape sqrtF X
  have hXd : tensorShapeb d.X n L C = true := by rw [hdX]; exact hX
  set m := entry (meanDim0 X) t c with hmdef
  set s := sqrtF (entry (varDim0 X) t c) with hsdef
  have hmEntry : entry d.feature_mean t c = m := by rw [hdm]
  have hsEntry : entry d.feature_std t c = s := by
    rw [hds, entry_stdDim0 sqrtF X (by omega) (by omega)]
  have hmval : m = (colVals X t c).sum / (n : ℚ) := by
    rw [hmdef, entry_meanDim0 X (by omega) (by omega)]
    rw [dim0, hXlen]
  have hvals : sampleEntries d n t c
      = (colVals X t c).map (fun x => (x - m) / s) := by
    unfold sampleEntries
    have hcong : ∀ i ∈ List.range n,
        entry (d.getitem i).X t c = (entry (X.getD i []) t c - m) / s := by
      intro i hi
      have hi' : i < n := List.mem_range.mp hi
      rw [getitem_std_entry d i t c hXd hm hsshape hi' ht hc hdstd,
        hmEntry, hsEntry, hdX]
    rw [List.map_congr_left hcong, ← hXlen,
      map_range_getD X [] (fun mat => (entry mat t c - m) / s)]
    unfold colVals
    rw [List.map_map]
    rfl
  have hcvlen : (colVals X t c).length = n := by simp [colVals, hXlen]
  have hvalslen : (sampleEntries d n t c).length = n := by simp [sampleEntries]
  have hnq : (n : ℚ) ≠ 0 := Nat.cast_ne_zero.mpr (by omega)
  have hn2q : (2 : ℚ) ≤ (n : ℚ) := by exact_mod_cast hn
  have hn1q : ((n : ℚ) - 1) ≠ 0 := by
    intro h0
    have : (n : ℚ) = 1 := by linarith
    linarith
  have hsum : (sampleEntries d n t c).sum = 0 := by
    rw [hvals]
    have hsplit : (fun x => (x - m) / s)
        = (fun x => x / s) ∘ (fun x => x - m) := rfl
    rw [hsplit, ← List.map_map, sum_map_div_const, sum_map_sub_const,
      hcvlen, hmval, mul_div_cancel₀ _ hnq]
    simp
  have hmean0 : lmean (sampleEntries d n t c) = 0 := by
    rw [lmean, hsum, hvalslen]
    simp
  refine ⟨hmean0, ?_⟩
  set S2 := ((colVals X t c).map (fun x => (x - m) ^ 2)).sum with hS2def
  have hvarEntry : entry (varDim0 X) t c = S2 / ((n : ℚ) - 1) := by
    rw [entry_varDim0 X (by omega) (by omega), dim0, hXlen, ← hmval]
  have hs2 : s ^ 2 = S2 / ((n : ℚ) - 1) := by
    rw [hsdef, hsq, hvarEntry]
  have hS2eq : s ^ 2 * ((n : ℚ) - 1) = S2 := (eq_div_iff hn1q).mp hs2
  have hsq_ne : s ^ 2 ≠ 0 := pow_ne_zero 2 hnz
  rw [lvar, hmean0, hvalslen, hvals]
  simp only [sub_zero]
  have hmaps : ((List.map (fun x => (x - m) / s) (colVals X t c)).map
      (fun x => x ^ 2)).sum = S2 / s ^ 2 := by
    rw [List.map_map]
    have hptw : ((fun x => x ^ 2) ∘ fun x => (x - m) / s)
        = (fun x => x / s ^ 2) ∘ (fun x => (x - m) ^ 2) := by
      funext x
      simp [Function.comp, div_pow]
    rw [hptw, ← List.map_map, sum_map_div_const]
  rw [hmaps, ← hS2eq]
  field_simp

/-- Witness for C8 at the concrete dataset X = [0; 1; 2] (one time step, one
channel): the standardized samples are -1, 0, 1 with mean 0 and unbiased
variance 1. -/
theorem C8_witness :
    lmean (sampleEntries
        (DiffusionDataset.make id id [[[0]], [[1]], [[2]]] none false true
          none) 3 0 0) = 0 ∧
      lvar (sampleEntries
        (DiffusionDataset.make id id [[[0]], [[1]], [[2]]] none false true
          none) 3 0 0) = 1 :=
  C8_self_standardization id id [[[0]], [[1]], [[2]]] (n := 3) (L := 1)
    (C := 1) 0 0 (by decide) (by decide) (by decide) (by decide)
    (by norm_num [varDim0, entry, colVals, dim0, dim1, dim2, List.range_succ])
    (by norm_num [varDim0, entry, colVals, dim0, dim1, dim2, List.range_succ])

end FDiff
